import Mathlib

/-!
Verification of the recursive chmod engine (fuc_engine/src/ops/chmod.rs) and
its command-line front end (chmodz/src/main.rs), shallowly embedded in Lean.

The filesystem is modelled as a finite tree of entries (files, symlinks,
directories).  Paths are raw strings, resolved by splitting on the path
separator; mode writes are recorded in an ordered log of (path, bits) pairs.
External capabilities (the symbolic-mode transform of the file_mode crate
and the possibility of an I/O failure on a mode write) are supplied by an
environment record.
-/

namespace Fuc

/-- Model of the filesystem entries seen by a symlink-aware (lstat-style)
traversal: a symlink is a leaf regardless of its target. -/
inductive FsNode : Type where
  | file (mode : Nat) : FsNode
  | symlink (mode : Nat) : FsNode
  | dir (mode : Nat) (children : List (String × FsNode)) : FsNode
deriving Repr

/-- Classification used by both symlink_metadata().is_dir() on roots and
DirEntry::file_type().is_dir() on children: neither follows symlinks. -/
def FsNode.isDir : FsNode → Bool
  | .dir _ _ => true
  | _ => false

/-- Current permission bits of an entry (what a metadata read returns). -/
def FsNode.bits : FsNode → Nat
  | .file m => m
  | .symlink m => m
  | .dir m _ => m

/-- Environment supplying the external capabilities: the symbolic-mode
transform (Modelled from the spec: the opaque parsed transform of a
Symbolic mode, with contract (mode string, current bits, is_directory) to
new bits or a parse error signalled by none) and an injected I/O failure
set for mode writes (the filesystem refusing a chmod at a given path). -/
structure Env where
  symApply : String → Nat → Bool → Option Nat
  chmodFail : String → Bool

/-- The mode argument: Octal for a string that fully parses as base-8,
Symbolic otherwise (ChmodMode in chmod.rs). -/
inductive ChmodMode : Type where
  | Octal (mode : Nat) : ChmodMode
  | Symbolic (mode : String) : ChmodMode
deriving Repr, DecidableEq

/-- Octal digit test for u32::from_str_radix(mode, 8). -/
def isOctDigit (c : Char) : Bool := '0' ≤ c && c ≤ '7'

/-- Numeric value of a list of octal digits, most significant first. -/
def octValue (l : List Char) : Nat :=
  l.foldl (fun a c => a * 8 + (c.toNat - '0'.toNat)) 0

/-- Sign handling of u32::from_str_radix for an unsigned type: an optional
leading plus sign is dropped; a minus sign is not treated as a sign and
will fail the digit check. -/
def stripSign : List Char → List Char
  | '+' :: rest => rest
  | cs => cs

/-- Model of u32::from_str_radix(s, 8): after the optional leading plus
sign, the remaining characters must be a nonempty run of octal digits,
and the value must fit in 32 bits (the checked accumulation reports
overflow). -/
def fromStrRadix8 (s : String) : Option Nat :=
  let ds := stripSign s.data
  if ds = [] then none
  else if ds.all isOctDigit then
    if octValue ds < 4294967296 then some (octValue ds) else none
  else none

/-- ChmodMode::new: Octal when the base-8 parse succeeds, Symbolic otherwise. -/
def ChmodMode.new (mode : String) : ChmodMode :=
  match fromStrRadix8 mode with
  | some number => ChmodMode.Octal number
  | none => ChmodMode.Symbolic mode

/-- Error type of file_mode::ModeError: an I/O failure (whose payload
carries no path) or a parse failure of the symbolic mode string. -/
inductive ModeError : Type where
  | ioError : ModeError
  | modeParseError (mode : String) : ModeError
deriving Repr, DecidableEq

/-- The engine error type (crate::Error), with the variants matched by the
command-line front end.  Io carries the human-readable context string
built at the wrapping site. -/
inductive Error : Type where
  | Io (context : String) : Error
  | NotFound (file : String) : Error
  | FileMode (mode : String) : Error
  | PreserveRoot : Error
  | Join : Error
  | BadPath : Error
  | Internal : Error
  | AlreadyExists (file : String) : Error
deriving Repr, DecidableEq

/-- Ordered log of attempted-and-completed mode writes: (path, new bits). -/
abbrev Log := List (String × Nat)

/-- Path join as PathBuf::push of a child name: a separator is inserted
only when the parent is nonempty and does not already end with one. -/
def joinPath (p name : String) : String :=
  if p = "" then name
  else if p.data.getLast? = some '/' then p ++ name
  else p ++ "/" ++ name

/-- Splitting a raw path string on the separator, helper. -/
def splitAux : List Char → List Char → List String
  | [], cur => [String.mk cur.reverse]
  | '/' :: rest, cur => String.mk cur.reverse :: splitAux rest []
  | c :: rest, cur => splitAux rest (c :: cur)

/-- Components of a raw path, empty components ignored (the OS resolves
repeated separators to nothing). -/
def splitPath (s : String) : List String :=
  (splitAux s.data []).filter (fun c => c ≠ "")

/-- Symlink-aware path resolution over the model tree: descending THROUGH a
symlink fails (the model never dereferences), while a path ending AT a
symlink resolves to the symlink itself, as lstat does. -/
def lookup : FsNode → List String → Option FsNode
  | n, [] => some n
  | FsNode.dir _ cs, name :: rest =>
    match cs.find? (fun c => c.1 = name) with
    | some c => lookup c.2 rest
    | none => none
  | _, _ :: _ => none

/-- One mode write (path.set_mode of the file_mode crate).  Modelled from
the spec for the external crate: an Octal mode replaces the permission
bits (kept in the managed 12-bit range, the platform-reserved rest
discarded); a Symbolic mode reads the current bits and applies the
external transform, whose parse failure is a ModeParseError; the
environment may inject an I/O failure for the write itself. -/
def applyWrite (env : Env) (mode : ChmodMode) (p : String) (isDir : Bool) (cur : Nat) :
    Except ModeError Nat :=
  if env.chmodFail p then Except.error ModeError.ioError
  else match mode with
    | ChmodMode.Octal m => Except.ok (m % 4096)
    | ChmodMode.Symbolic s =>
      match env.symApply s cur isDir with
      | some b => Except.ok (b % 4096)
      | none => Except.error (ModeError.modeParseError s)

/-- Direct mode application to a single non-directory entry. -/
def oneEntry (env : Env) (mode : ChmodMode) (p : String) (isDir : Bool) (cur : Nat) :
    Except ModeError Unit × Log :=
  match applyWrite env mode p isDir cur with
  | Except.error e => (Except.error e, [])
  | Except.ok b => (Except.ok (), [(p, b)])

mutual

/-- Per-entry dispatch of chmod_dir_all: a directory entry is recursed into
(and receives its own write only after all children succeeded), any other
entry (files and symlinks alike) receives a direct write. -/
def chmodNode (env : Env) (mode : ChmodMode) (p : String) : FsNode → Except ModeError Unit × Log
  | FsNode.file m => oneEntry env mode p false m
  | FsNode.symlink m => oneEntry env mode p false m
  | FsNode.dir m cs =>
    match chmodList env mode p cs with
    | (Except.error e, log) => (Except.error e, log)
    | (Except.ok _, log) =>
      match applyWrite env mode p true m with
      | Except.error e => (Except.error e, log)
      | Except.ok b => (Except.ok (), log ++ [(p, b)])

/-- The children pass of chmod_dir_all (the try_for_each over read_dir):
children are processed in order, the first failure short-circuits. -/
def chmodList (env : Env) (mode : ChmodMode) (p : String) :
    List (String × FsNode) → Except ModeError Unit × Log
  | [] => (Except.ok (), [])
  | (name, c) :: rest =>
    match chmodNode env mode (joinPath p name) c with
    | (Except.error e, log) => (Except.error e, log)
    | (Except.ok _, log) =>
      match chmodList env mode p rest with
      | (res, log2) => (res, log ++ log2)

end

mutual

/-- All entry paths of the subtree rooted at an entry, in the order the
traversal visits them (children first, the directory itself last); a
symlink contributes only itself, since the traversal never descends
through it. -/
def entryPaths (p : String) : FsNode → List String
  | FsNode.file _ => [p]
  | FsNode.symlink _ => [p]
  | FsNode.dir _ cs => entryPathsList p cs ++ [p]

/-- Entry paths contributed by a list of children of directory p. -/
def entryPathsList (p : String) : List (String × FsNode) → List String
  | [] => []
  | (name, c) :: rest => entryPaths (joinPath p name) c ++ entryPathsList p rest

end

/-- Error wrapping of Impl::run: an I/O failure from a directory traversal
is wrapped with a context string naming the directory the traversal was
started on; a parse failure converts to Error::FileMode. -/
def wrapDirErr (p : String) : ModeError → Error
  | ModeError.ioError => Error.Io ("Failed to chmod directory: " ++ p)
  | ModeError.modeParseError s => Error.FileMode s

/-- Error wrapping of the non-directory branch of schedule_chmod. -/
def wrapFileErr (p : String) : ModeError → Error
  | ModeError.ioError => Error.Io ("Failed to chmod file: " ++ p)
  | ModeError.modeParseError s => Error.FileMode s

/-- Impl::run: chmod_dir_all on a root directory, its ModeError mapped to
the engine error type with the root directory path as context. -/
def implRun (env : Env) (mode : ChmodMode) (p : String) (n : FsNode) :
    Except Error Unit × Log :=
  match chmodNode env mode p n with
  | (Except.error e, log) => (Except.error (wrapDirErr p e), log)
  | (Except.ok _, log) => (Except.ok (), log)

/-- Trailing-separator stripping of schedule_chmod: strip_suffix removes
one trailing separator when present. -/
def stripOne (r : String) : String :=
  if r.data.getLast? = some '/' then String.mk r.data.dropLast else r

/-- Processing of a single root by schedule_chmod: strip one trailing
separator, classify by symlink-aware metadata (missing paths are skipped
under force and are a NotFound failure otherwise), then either run the
directory traversal or apply the mode directly to the non-directory
root. -/
def scheduleOne (env : Env) (mode : ChmodMode) (force : Bool) (fs : FsNode) (r : String) :
    Except Error Unit × Log :=
  let s := stripOne r
  match lookup fs (splitPath s) with
  | none =>
    if force then (Except.ok (), [])
    else (Except.error (Error.NotFound s), [])
  | some n =>
    if n.isDir then implRun env mode s n
    else
      match oneEntry env mode s n.isDir n.bits with
      | (Except.error e, log) => (Except.error (wrapFileErr s e), log)
      | (Except.ok _, log) => (Except.ok (), log)

/-- schedule_chmod over the root list: roots are processed sequentially and
the first failing root returns its error immediately (the question-mark
propagation inside the for loop). -/
def scheduleChmod (env : Env) (mode : ChmodMode) (force : Bool) (fs : FsNode) :
    List String → Except Error Unit × Log
  | [] => (Except.ok (), [])
  | r :: rest =>
    match scheduleOne env mode force fs r with
    | (Except.error e, log) => (Except.error e, log)
    | (Except.ok _, log) =>
      match scheduleChmod env mode force fs rest with
      | (res, log2) => (res, log ++ log2)

/-- ChmodOp::run: schedule the work, then finish (which always succeeds for
the chmod implementation) and combine the results. -/
def chmodOpRun (env : Env) (mode : ChmodMode) (force : Bool) (fs : FsNode)
    (files : List String) : Except Error Unit × Log :=
  scheduleChmod env mode force fs files

/-- The parsed command-line surface of chmodz (the Chmodz clap struct): a
mode string, the list of files, and the help flag.  It has no force
field. -/
structure Chmodz where
  mode : String
  files : List String
  help : Option Bool

/-- The chmod function of main.rs: builds a ChmodOp from the parsed
arguments without calling the force setter, so force takes its builder
default of false. -/
def chmodCli (env : Env) (fs : FsNode) (args : Chmodz) : Except Error Unit × Log :=
  chmodOpRun env (ChmodMode.new args.mode) false fs args.files

/-- The printable attachments added by the error mapping of main: a
NotFound failure additionally suggests the force flag. -/
def cliAttachments : Error → List String
  | Error.NotFound _ => ["Use --force to ignore."]
  | _ => []

mutual

/-- Every path written by the traversal of an entry lies in the subtree of
that entry (symlinks being leaves), and a successful traversal writes
exactly the entry paths of the subtree in visit order. -/
theorem chmodNode_log (env : Env) (mode : ChmodMode) :
    ∀ (n : FsNode) (p : String),
      ((chmodNode env mode p n).2.map Prod.fst ⊆ entryPaths p n) ∧
      ((chmodNode env mode p n).1 = Except.ok () →
        (chmodNode env mode p n).2.map Prod.fst = entryPaths p n)
  | FsNode.file m, p => by
    simp only [chmodNode, oneEntry, entryPaths]
    rcases applyWrite env mode p false m with e | b <;> simp
  | FsNode.symlink m, p => by
    simp only [chmodNode, oneEntry, entryPaths]
    rcases applyWrite env mode p false m with e | b <;> simp
  | FsNode.dir m cs, p => by
    have ih := chmodList_log env mode cs p
    simp only [chmodNode, entryPaths]
    rcases hcl : chmodList env mode p cs with ⟨res1, log1⟩
    rw [hcl] at ih
    rcases res1 with e | u
    · simp only []
      constructor
      · exact ih.1.trans (List.subset_append_left _ _)
      · intro h
        simp at h
    · rcases haw : applyWrite env mode p true m with e | b
      · simp only []
        constructor
        · exact ih.1.trans (List.subset_append_left _ _)
        · intro h
          simp at h
      · simp only [List.map_append]
        constructor
        · intro q hq
          rcases List.mem_append.mp hq with hq | hq
          · exact List.mem_append_left _ (ih.1 hq)
          · simp at hq
            simp [hq]
        · intro _
          have := ih.2 rfl
          simp [this]

/-- List version of chmodNode_log for the children pass. -/
theorem chmodList_log (env : Env) (mode : ChmodMode) :
    ∀ (l : List (String × FsNode)) (p : String),
      ((chmodList env mode p l).2.map Prod.fst ⊆ entryPathsList p l) ∧
      ((chmodList env mode p l).1 = Except.ok () →
        (chmodList env mode p l).2.map Prod.fst = entryPathsList p l)
  | [], p => by simp [chmodList, entryPathsList]
  | (name, c) :: rest, p => by
    have ihn := chmodNode_log env mode c (joinPath p name)
    have ihl := chmodList_log env mode rest p
    simp only [chmodList, entryPathsList]
    rcases hcn : chmodNode env mode (joinPath p name) c with ⟨res1, log1⟩
    rw [hcn] at ihn
    rcases res1 with e | u
    · simp only []
      constructor
      · exact ihn.1.trans (List.subset_append_left _ _)
      · intro h
        simp at h
    · rcases hcl : chmodList env mode p rest with ⟨res2, log2⟩
      rw [hcl] at ihl
      simp only [List.map_append]
      constructor
      · intro q hq
        rcases List.mem_append.mp hq with hq | hq
        · exact List.mem_append_left _ (ihn.1 hq)
        · exact List.mem_append_right _ (ihl.1 hq)
      · intro h
        have h1 := ihn.2 rfl
        have h2 := ihl.2 h
        simp [h1, h2]

end

/-- C1: for every directory whose traversal completes successfully, the
mode write to the directory itself is the last entry of the write log,
strictly after the writes of the entries transitively under it: the log
before it is exactly the list of subtree entry paths in visit order (the
order of sibling completion is the processing order the model fixes for
the nondeterministic parallel schedule). -/
theorem c1_dir_mode_write_postorder (env : Env) (mode : ChmodMode) (p : String)
    (m : Nat) (cs : List (String × FsNode)) (log : Log)
    (h : chmodNode env mode p (FsNode.dir m cs) = (Except.ok (), log)) :
    ∃ l b, log = l ++ [(p, b)] ∧ l.map Prod.fst = entryPathsList p cs := by
  have hl := chmodList_log env mode cs p
  simp only [chmodNode] at h
  rcases hcl : chmodList env mode p cs with ⟨res1, log1⟩
  rw [hcl] at h hl
  rcases res1 with e | u
  · simp at h
  · rcases haw : applyWrite env mode p true m with e | b
    · rw [haw] at h
      simp at h
    · rw [haw] at h
      simp only [Prod.mk.injEq] at h
      refine ⟨log1, b, h.2.symm, ?_⟩
      exact hl.2 rfl

/-- Concrete run of c1_dir_mode_write_postorder on a two-level directory. -/
theorem c1_dir_mode_write_postorder_witness :
    ∃ l b,
      ([("d/a", 420), ("d/b/c", 420), ("d/b", 420), ("d", 420)] : Log)
        = l ++ [("d", b)] ∧
      l.map Prod.fst
        = entryPathsList "d"
            [("a", FsNode.file 6), ("b", FsNode.dir 5 [("c", FsNode.file 4)])] :=
  c1_dir_mode_write_postorder ⟨fun _ _ _ => none, fun _ => false⟩
    (ChmodMode.Octal 420) "d" 7
    [("a", FsNode.file 6), ("b", FsNode.dir 5 [("c", FsNode.file 4)])]
    [("d/a", 420), ("d/b/c", 420), ("d/b", 420), ("d", 420)] (by rfl)

/-- In an erroring children pass there is a first failing child: all
children before it were processed successfully and its error is the one
returned. -/
theorem chmodList_error_decomp (env : Env) (mode : ChmodMode) (p : String) :
    ∀ (cs : List (String × FsNode)) (e : ModeError) (log : Log),
      chmodList env mode p cs = (Except.error e, log) →
      ∃ pre name c post, cs = pre ++ (name, c) :: post ∧
        (chmodList env mode p pre).1 = Except.ok () ∧
        (chmodNode env mode (joinPath p name) c).1 = Except.error e
  | [], e, log => by simp [chmodList]
  | (name, c) :: rest, e, log => by
    intro h
    simp only [chmodList] at h
    rcases hcn : chmodNode env mode (joinPath p name) c with ⟨res1, log1⟩
    rw [hcn] at h
    rcases res1 with e1 | u
    · simp only [Prod.mk.injEq, Except.error.injEq] at h
      refine ⟨[], name, c, rest, rfl, by simp [chmodList], ?_⟩
      rw [hcn, h.1]
    · rcases hcl : chmodList env mode p rest with ⟨res2, log2⟩
      rw [hcl] at h
      simp only [Prod.mk.injEq] at h
      obtain ⟨pre, name2, c2, post, hcs, hpre, hnode⟩ :=
        chmodList_error_decomp env mode p rest e log2 (by rw [hcl, h.1])
      refine ⟨(name, c) :: pre, name2, c2, post, by rw [hcs]; rfl, ?_, hnode⟩
      cases u
      simp only [chmodList]
      rw [hcn]
      rcases hp2 : chmodList env mode p pre with ⟨resp, logp⟩
      rw [hp2] at hpre
      simp at hpre
      rw [hpre]

/-- C2: if any child task of a directory fails, the own mode of the
directory is not applied (the result is exactly the children-pass failure, with no
write of the directory appended to the log) and the returned error is the
one of the first failing child: every child processed before it
succeeded. -/
theorem c2_first_child_error (env : Env) (mode : ChmodMode) (p : String)
    (m : Nat) (cs : List (String × FsNode)) (e : ModeError) (log : Log)
    (h : chmodList env mode p cs = (Except.error e, log)) :
    chmodNode env mode p (FsNode.dir m cs) = (Except.error e, log) ∧
    ∃ pre name c post, cs = pre ++ (name, c) :: post ∧
      (chmodList env mode p pre).1 = Except.ok () ∧
      (chmodNode env mode (joinPath p name) c).1 = Except.error e := by
  constructor
  · simp only [chmodNode]
    rw [h]
  · exact chmodList_error_decomp env mode p cs e log h

/-- Concrete run of c2_first_child_error: the write of file d/a fails, so
directory d is returned unmodified with that error. -/
theorem c2_first_child_error_witness :
    chmodNode ⟨fun _ _ _ => none, fun q => q == "d/a"⟩ (ChmodMode.Octal 420) "d"
        (FsNode.dir 7 [("a", FsNode.file 6), ("b", FsNode.file 5)])
      = (Except.error ModeError.ioError, []) ∧
    ∃ pre name c post,
      ([("a", FsNode.file 6), ("b", FsNode.file 5)] : List (String × FsNode))
        = pre ++ (name, c) :: post ∧
      (chmodList ⟨fun _ _ _ => none, fun q => q == "d/a"⟩ (ChmodMode.Octal 420)
        "d" pre).1 = Except.ok () ∧
      (chmodNode ⟨fun _ _ _ => none, fun q => q == "d/a"⟩ (ChmodMode.Octal 420)
        (joinPath "d" name) c).1 = Except.error ModeError.ioError :=
  c2_first_child_error ⟨fun _ _ _ => none, fun q => q == "d/a"⟩
    (ChmodMode.Octal 420) "d" 7 [("a", FsNode.file 6), ("b", FsNode.file 5)]
    ModeError.ioError [] (by rfl)

/-- Whether the first list is an initial run of the second. -/
def leadMatch : List Char → List Char → Bool
  | [], _ => true
  | _ :: _, [] => false
  | a :: as, b :: bs => a == b && leadMatch as bs

/-- Whether the first list occurs contiguously anywhere inside the second. -/
def containsSeq (needle : List Char) : List Char → Bool
  | [] => leadMatch needle []
  | c :: rest => leadMatch needle (c :: rest) || containsSeq needle rest

/-- C3 counterexample: the traversal of directory d fails because the write
of the entry d/a fails, yet the returned failure carries only the context
naming the root directory d; the offending entry path d/a occurs nowhere
in the error. -/
theorem c3_counterexample :
    implRun ⟨fun _ _ _ => none, fun q => q == "d/a"⟩ (ChmodMode.Octal 420) "d"
        (FsNode.dir 7 [("a", FsNode.file 6)])
      = (Except.error (Error.Io "Failed to chmod directory: d"), []) ∧
    containsSeq "d/a".data "Failed to chmod directory: d".data = false := by
  exact ⟨by rfl, by decide⟩

/-- C3 amended: a failure surfaced from a directory traversal carries the
root directory path in its Io context (or, for a symbolic parse failure,
the offending mode string); the specific descendant entry on which the
operation failed is not identified. -/
theorem c3_amended (env : Env) (mode : ChmodMode) (p : String) (n : FsNode)
    (e : Error) (log : Log) (h : implRun env mode p n = (Except.error e, log)) :
    e = Error.Io ("Failed to chmod directory: " ++ p) ∨
    ∃ s, e = Error.FileMode s := by
  simp only [implRun] at h
  rcases hcn : chmodNode env mode p n with ⟨res1, log1⟩
  rw [hcn] at h
  rcases res1 with e1 | u
  · simp only [Prod.mk.injEq, Except.error.injEq] at h
    rcases e1 with _ | s
    · left
      rw [← h.1]
      rfl
    · right
      refine ⟨s, ?_⟩
      rw [← h.1]
      rfl
  · simp at h

/-- Concrete run of c3_amended on the failing traversal of directory d. -/
theorem c3_amended_witness :
    Error.Io "Failed to chmod directory: d"
      = Error.Io ("Failed to chmod directory: " ++ "d") ∨
    ∃ s, Error.Io "Failed to chmod directory: d" = Error.FileMode s :=
  c3_amended ⟨fun _ _ _ => none, fun q => q == "d/a"⟩ (ChmodMode.Octal 420) "d"
    (FsNode.dir 7 [("a", FsNode.file 6)])
    (Error.Io "Failed to chmod directory: d") [] (by rfl)

/-- C4: a root that does not exist at classification time is skipped
silently when force is set (the run is exactly the run of the remaining
roots, with no write attempted for it), and fails the run with a NotFound
error naming that root (in stripped form) when force is unset. -/
theorem c4_missing_root (env : Env) (mode : ChmodMode) (fs : FsNode)
    (r : String) (rest : List String)
    (h : lookup fs (splitPath (stripOne r)) = none) :
    scheduleChmod env mode true fs (r :: rest) = scheduleChmod env mode true fs rest ∧
    scheduleChmod env mode false fs (r :: rest)
      = (Except.error (Error.NotFound (stripOne r)), []) := by
  constructor
  · simp only [scheduleChmod, scheduleOne]
    rw [h]
    simp only [if_pos rfl]
    rcases hr : scheduleChmod env mode true fs rest with ⟨res, log2⟩
    simp
  · simp only [scheduleChmod, scheduleOne]
    rw [h]
    simp

/-- Concrete run of c4_missing_root on a filesystem with a single file f. -/
theorem c4_missing_root_witness :
    scheduleChmod ⟨fun _ _ _ => none, fun _ => false⟩ (ChmodMode.Octal 420) true
        (FsNode.dir 0 [("f", FsNode.file 1)]) ["missing", "f"]
      = scheduleChmod ⟨fun _ _ _ => none, fun _ => false⟩ (ChmodMode.Octal 420)
          true (FsNode.dir 0 [("f", FsNode.file 1)]) ["f"] ∧
    scheduleChmod ⟨fun _ _ _ => none, fun _ => false⟩ (ChmodMode.Octal 420) false
        (FsNode.dir 0 [("f", FsNode.file 1)]) ["missing", "f"]
      = (Except.error (Error.NotFound (stripOne "missing")), []) :=
  c4_missing_root ⟨fun _ _ _ => none, fun _ => false⟩ (ChmodMode.Octal 420)
    (FsNode.dir 0 [("f", FsNode.file 1)]) "missing" ["f"] (by rfl)

/-- C5: the command-line surface has no force field, so a run launched from
parsed arguments always executes with force unset: a missing path makes
the whole run fail with NotFound even though the engine run with force set
would succeed, and the NotFound error mapping of main attaches the
suggestion to use a force flag that the argument parser does not accept. -/
theorem c5_cli_has_no_force_flag :
    chmodCli ⟨fun _ _ _ => none, fun _ => false⟩ (FsNode.dir 0 [])
        ⟨"755", ["missing"], none⟩
      = (Except.error (Error.NotFound "missing"), []) ∧
    scheduleChmod ⟨fun _ _ _ => none, fun _ => false⟩ (ChmodMode.new "755") true
        (FsNode.dir 0 []) ["missing"]
      = (Except.ok (), []) ∧
    cliAttachments (Error.NotFound "missing") = ["Use --force to ignore."] :=
  ⟨by rfl, by rfl, by rfl⟩

/-- C6 counterexample: the engine strips exactly one trailing separator, so
the root a// is processed as the path a/, while the same root with its
trailing separator stripped, a/, is processed as the path a: on a
filesystem without entry a the two runs return NotFound errors naming
different paths, hence the behaviours differ (and a// also differs from
the fully stripped root a). -/
theorem c6_counterexample :
    scheduleOne ⟨fun _ _ _ => none, fun _ => false⟩ (ChmodMode.Octal 420) false
        (FsNode.dir 0 []) "a//"
      = (Except.error (Error.NotFound "a/"), []) ∧
    scheduleOne ⟨fun _ _ _ => none, fun _ => false⟩ (ChmodMode.Octal 420) false
        (FsNode.dir 0 []) "a/"
      = (Except.error (Error.NotFound "a"), []) ∧
    Error.NotFound "a/" ≠ Error.NotFound "a" :=
  ⟨by rfl, by rfl, by decide⟩

/-- Helper: stripping is the identity on a path without a trailing
separator. -/
theorem stripOne_eq_self (s : String) (h : ¬ s.data.getLast? = some '/') :
    stripOne s = s := by
  simp only [stripOne, if_neg h]

/-- C6 amended: for a root whose once-stripped form has no trailing
separator (in particular any root with exactly one trailing separator),
processing the root is identical to processing its stripped form; the
engine strips only a single trailing separator, so a root ending in
several separators is processed as a path that still carries trailing
separators. -/
theorem c6_amended (env : Env) (mode : ChmodMode) (force : Bool) (fs : FsNode)
    (r : String) (h : ¬ (stripOne r).data.getLast? = some '/') :
    scheduleOne env mode force fs r = scheduleOne env mode force fs (stripOne r) := by
  simp only [scheduleOne, stripOne_eq_self (stripOne r) h]

/-- Concrete run of c6_amended: dir/ and dir behave identically. -/
theorem c6_amended_witness :
    scheduleOne ⟨fun _ _ _ => none, fun _ => false⟩ (ChmodMode.Octal 420) false
        (FsNode.dir 0 [("dir", FsNode.dir 7 [])]) "dir/"
      = scheduleOne ⟨fun _ _ _ => none, fun _ => false⟩ (ChmodMode.Octal 420)
          false (FsNode.dir 0 [("dir", FsNode.dir 7 [])]) (stripOne "dir/") :=
  c6_amended ⟨fun _ _ _ => none, fun _ => false⟩ (ChmodMode.Octal 420) false
    (FsNode.dir 0 [("dir", FsNode.dir 7 [])]) "dir/" (by decide)

/-- C7: a symlink is classified as a non-directory by the symlink-aware
metadata model; a root that resolves to a symlink receives at most one
write, to the symlink path itself, with no traversal behind it; during a
traversal a symlink child likewise receives at most its own direct write;
and in general every written path lies in the symlink-leaved subtree of
the traversed entry, so no entry reachable only through a symlink target
is ever visited as part of that symlink. -/
theorem c7_symlink_not_traversed (env : Env) (mode : ChmodMode) (force : Bool)
    (fs : FsNode) (r : String) (m : Nat)
    (h : lookup fs (splitPath (stripOne r)) = some (FsNode.symlink m)) :
    FsNode.isDir (FsNode.symlink m) = false ∧
    ((scheduleOne env mode force fs r).2.map Prod.fst ⊆ [stripOne r]) ∧
    (∀ (p : String) (m2 : Nat),
      (chmodNode env mode p (FsNode.symlink m2)).2.map Prod.fst ⊆ [p]) ∧
    (∀ (p : String) (m2 : Nat), entryPaths p (FsNode.symlink m2) = [p]) ∧
    (∀ (p : String) (n : FsNode),
      (chmodNode env mode p n).2.map Prod.fst ⊆ entryPaths p n) := by
  refine ⟨rfl, ?_, ?_, fun p m2 => rfl, fun p n => (chmodNode_log env mode n p).1⟩
  · simp only [scheduleOne]
    rw [h]
    simp only [FsNode.isDir, if_neg (by simp : ¬ false = true), oneEntry]
    rcases haw : applyWrite env mode (stripOne r) false
        (FsNode.bits (FsNode.symlink m)) with e | b <;> simp
  · intro p m2
    have := (chmodNode_log env mode (FsNode.symlink m2) p).1
    rwa [entryPaths] at this

/-- Concrete run of c7_symlink_not_traversed on a root symlink l. -/
theorem c7_symlink_not_traversed_witness :
    FsNode.isDir (FsNode.symlink 2) = false ∧
    ((scheduleOne ⟨fun _ _ _ => none, fun _ => false⟩ (ChmodMode.Octal 420) false
        (FsNode.dir 0 [("l", FsNode.symlink 2)]) "l").2.map Prod.fst
      ⊆ [stripOne "l"]) ∧
    (∀ (p : String) (m2 : Nat),
      (chmodNode ⟨fun _ _ _ => none, fun _ => false⟩ (ChmodMode.Octal 420) p
        (FsNode.symlink m2)).2.map Prod.fst ⊆ [p]) ∧
    (∀ (p : String) (m2 : Nat), entryPaths p (FsNode.symlink m2) = [p]) ∧
    (∀ (p : String) (n : FsNode),
      (chmodNode ⟨fun _ _ _ => none, fun _ => false⟩ (ChmodMode.Octal 420) p
        n).2.map Prod.fst ⊆ entryPaths p n) :=
  c7_symlink_not_traversed ⟨fun _ _ _ => none, fun _ => false⟩
    (ChmodMode.Octal 420) false (FsNode.dir 0 [("l", FsNode.symlink 2)]) "l" 2
    (by rfl)

/-- C8 counterexample: with roots missing and f, where the file f exists
and alone is processed successfully, the failure of the first root ends
the whole run and f receives no write: a failure on one root does prevent
the remaining roots from being processed. -/
theorem c8_counterexample :
    scheduleChmod ⟨fun _ _ _ => none, fun _ => false⟩ (ChmodMode.Octal 420) false
        (FsNode.dir 0 [("f", FsNode.file 1)]) ["missing", "f"]
      = (Except.error (Error.NotFound "missing"), []) ∧
    scheduleChmod ⟨fun _ _ _ => none, fun _ => false⟩ (ChmodMode.Octal 420) false
        (FsNode.dir 0 [("f", FsNode.file 1)]) ["f"]
      = (Except.ok (), [("f", 420)]) :=
  ⟨by rfl, by rfl⟩

/-- C8 amended: roots are processed strictly sequentially in list order; as
soon as one root fails, the run returns that first failure and the
remaining roots are not processed at all (no write is attempted for
them). -/
theorem c8_amended (env : Env) (mode : ChmodMode) (force : Bool) (fs : FsNode)
    (r : String) (rest : List String) (e : Error) (log : Log)
    (h : scheduleOne env mode force fs r = (Except.error e, log)) :
    scheduleChmod env mode force fs (r :: rest) = (Except.error e, log) := by
  simp only [scheduleChmod]
  rw [h]

/-- Concrete run of c8_amended: the missing first root ends the run. -/
theorem c8_amended_witness :
    scheduleChmod ⟨fun _ _ _ => none, fun _ => false⟩ (ChmodMode.Octal 420) false
        (FsNode.dir 0 [("f", FsNode.file 1)]) ["missing", "f"]
      = (Except.error (Error.NotFound "missing"), []) :=
  c8_amended ⟨fun _ _ _ => none, fun _ => false⟩ (ChmodMode.Octal 420) false
    (FsNode.dir 0 [("f", FsNode.file 1)]) "missing" ["f"]
    (Error.NotFound "missing") [] (by rfl)

/-- C9: when the write itself does not fail, applying an Absolute octal
mode in the managed 12-bit range sets the permission bits to exactly that
value (a subsequent read returns it), and applying the same Absolute mode
again to the resulting bits produces the same final bits, so applying it
twice equals applying it once. -/
theorem c9_absolute_exact_and_idempotent (env : Env) (p : String) (d : Bool)
    (cur m : Nat) (hf : env.chmodFail p = false) (hm : m < 4096) :
    applyWrite env (ChmodMode.Octal m) p d cur = Except.ok m ∧
    applyWrite env (ChmodMode.Octal m) p d m = Except.ok m := by
  have hmod : m % 4096 = m := Nat.mod_eq_of_lt hm
  constructor <;> simp [applyWrite, hf, hmod]

/-- Concrete run of c9_absolute_exact_and_idempotent at mode 755 (octal)
over an entry with prior bits 600 (octal). -/
theorem c9_absolute_exact_and_idempotent_witness :
    applyWrite ⟨fun _ _ _ => none, fun _ => false⟩ (ChmodMode.Octal 493) "f"
        false 384 = Except.ok 493 ∧
    applyWrite ⟨fun _ _ _ => none, fun _ => false⟩ (ChmodMode.Octal 493) "f"
        false 493 = Except.ok 493 :=
  c9_absolute_exact_and_idempotent ⟨fun _ _ _ => none, fun _ => false⟩ "f" false
    384 493 (by rfl) (by decide)

/-- C10 counterexample: the string +40000000000 consists of a leading plus
sign followed by octal digits, yet ChmodMode::new classifies it as
Symbolic, because its value does not fit in a 32-bit unsigned integer and
the checked base-8 parse reports overflow. -/
theorem c10_counterexample :
    ("40000000000".data.all isOctDigit = true) ∧
    ChmodMode.new "+40000000000" = ChmodMode.Symbolic "+40000000000" :=
  ⟨by decide, by rfl⟩

/-- C10 amended: any string consisting of a leading plus sign followed by
a nonempty run of octal digits whose value fits in a 32-bit unsigned
integer is classified by ChmodMode::new as Octal with that value, because
the base-8 integer parse accepts an optional leading sign; on overflow the
parse fails and the string is classified Symbolic instead. -/
theorem c10_plus_sign_parses_octal (l : List Char) (h1 : l ≠ [])
    (h2 : l.all isOctDigit = true) (h3 : octValue l < 4294967296) :
    ChmodMode.new (String.mk ('+' :: l)) = ChmodMode.Octal (octValue l) := by
  have hds : stripSign (String.mk ('+' :: l)).data = l := by
    simp [stripSign]
  simp only [ChmodMode.new, fromStrRadix8, hds]
  rw [if_neg h1, if_pos h2, if_pos h3]

/-- Concrete run of c10_plus_sign_parses_octal on the mode string +755. -/
theorem c10_plus_sign_parses_octal_witness :
    ChmodMode.new (String.mk ('+' :: ['7', '5', '5']))
      = ChmodMode.Octal (octValue ['7', '5', '5']) :=
  c10_plus_sign_parses_octal ['7', '5', '5'] (by decide) (by decide) (by decide)

end Fuc
